import Mathlib

/-!
Verification of the `estool` evolution-strategies library (`es.py`).

This file gives a shallow embedding of the library's data model and update
algorithms over exact rationals (`ℚ`): numpy float arrays become `List ℚ`,
in-place mutation becomes explicit state passing on per-strategy state
structures, and Python `assert` failures / numpy exceptions become
`Except`/error values.  `np.sqrt` (used only inside the Adam optimizers and
the norm of the update ratio) is abstracted as an explicit function
parameter `sq : ℚ → ℚ`, so every definition stays executable; all theorems
about Adam hold for an arbitrary `sq`.
-/

/-! ## Vector helpers (numpy elementwise array arithmetic) -/

/-- Elementwise addition of two equal-length arrays (`a + b` on numpy arrays). -/
def vadd (x y : List ℚ) : List ℚ := List.zipWith (fun a b => a + b) x y

/-- Elementwise subtraction (`a - b` on numpy arrays). -/
def vsub (x y : List ℚ) : List ℚ := List.zipWith (fun a b => a - b) x y

/-- Elementwise negation (`-a` on a numpy array). -/
def vneg (x : List ℚ) : List ℚ := x.map (fun a => -a)

/-- Scalar multiplication of an array (`c * a`). -/
def smul (c : ℚ) (x : List ℚ) : List ℚ := x.map (fun a => c * a)

/-- Elementwise product (`a * b` on numpy arrays). -/
def vmul (x y : List ℚ) : List ℚ := List.zipWith (fun a b => a * b) x y

/-- The all-zero vector `np.zeros(n)`. -/
def vzero (n : ℕ) : List ℚ := List.replicate n 0

/-- Sum of a list of rationals. -/
def listSum (l : List ℚ) : ℚ := l.foldr (fun a b => a + b) 0

/-- Embedding of `np.mean` of a one-dimensional array. -/
def listMean (l : List ℚ) : ℚ := listSum l / (l.length : ℚ)

/-- Embedding of `np.dot(rows.T, r)` for `rows` an `m × n` matrix stored by rows and `r`
a length-`m` vector: the `r`-weighted sum of the rows, a length-`n` vector. -/
def matTvec (n : ℕ) (rows : List (List ℚ)) (r : List ℚ) : List ℚ :=
  (List.zipWith (fun ri row => smul ri row) r rows).foldr vadd (vzero n)

/-- Column-wise mean `rows.mean(axis=0)` of a list of length-`n` rows. -/
def colMean (n : ℕ) (rows : List (List ℚ)) : List ℚ :=
  smul (1 / (rows.length : ℚ)) (rows.foldr vadd (vzero n))

/-- Python `int(q)`: truncation toward zero. -/
def pyInt (q : ℚ) : ℤ := if 0 ≤ q then ⌊q⌋ else ⌈q⌉

/-! ## RankTransform (`compute_ranks`, `compute_centered_ranks`)

`np.argsort` is embedded as an insertion sort of the index list
`[0, ..., n-1]` ordered by the corresponding value, with ties broken by the
original index (the stable tie-break noted in the source's design notes).
`ranks[x.argsort()] = np.arange(len(x))` says the rank of index `i` is the
position of `i` inside the argsort permutation. -/

/-- Insert index `i` into an index list sorted by the order `le`. -/
def insertIdxLe (le : ℕ → ℕ → Bool) (i : ℕ) : List ℕ → List ℕ
  | [] => [i]
  | j :: rest => if le i j then i :: j :: rest else j :: insertIdxLe le i rest

/-- Insertion sort of an index list by the order `le`. -/
def isortIdx (le : ℕ → ℕ → Bool) : List ℕ → List ℕ
  | [] => []
  | i :: rest => insertIdxLe le i (isortIdx le rest)

/-- Comparison used by `argsort` on `x`: order indices by value, breaking
ties by index. -/
def argsortLe (x : List ℚ) (i j : ℕ) : Bool :=
  decide (x.getD i 0 < x.getD j 0 ∨ (x.getD i 0 = x.getD j 0 ∧ i ≤ j))

/-- Embedding of `x.argsort()`: the indices of `x` sorted by their value. -/
def argsort (x : List ℚ) : List ℕ :=
  isortIdx (argsortLe x) (List.range x.length)

/-- Embedding of `compute_ranks(x)`: ranks in `[0, len(x))`; `ranks[x.argsort()] = arange(len(x))`,
so the rank of position `i` is the position of `i` in the argsort output. -/
def compute_ranks (x : List ℚ) : List ℕ :=
  (List.range x.length).map (fun i => (argsort x).findIdx (fun j => j == i))

/-- Embedding of `compute_centered_ranks(x)`: ranks cast to float, divided by `len(x) - 1`,
minus `0.5`. -/
def compute_centered_ranks (x : List ℚ) : List ℚ :=
  (compute_ranks x).map (fun r : ℕ => (r : ℚ) / ((x.length : ℚ) - 1) - 1/2)

/-- Embedding of `compute_weight_decay(weight_decay, model_param_list)`:
`-weight_decay * np.mean(params * params, axis=1)` per candidate row. -/
def compute_weight_decay (weight_decay : ℚ) (model_param_list : List (List ℚ)) : List ℚ :=
  model_param_list.map (fun p => -weight_decay * listMean (p.map (fun a => a * a)))

/-! ### Permutation facts about the argsort embedding -/

theorem insertIdxLe_perm (le : ℕ → ℕ → Bool) (i : ℕ) :
    ∀ l : List ℕ, List.Perm (insertIdxLe le i l) (i :: l) := by
  intro l
  induction l with
  | nil => simp [insertIdxLe]
  | cons j rest ih =>
    unfold insertIdxLe
    by_cases h : le i j
    · simp [h]
    · simp only [h, if_neg, Bool.false_eq_true, not_false_eq_true, ite_false]
      exact (List.Perm.cons j ih).trans (List.Perm.swap i j rest)

theorem isortIdx_perm (le : ℕ → ℕ → Bool) :
    ∀ l : List ℕ, List.Perm (isortIdx le l) l := by
  intro l
  induction l with
  | nil => simp [isortIdx]
  | cons i rest ih =>
    unfold isortIdx
    exact (insertIdxLe_perm le i (isortIdx le rest)).trans (List.Perm.cons i ih)

theorem argsort_perm (x : List ℚ) :
    List.Perm (argsort x) (List.range x.length) :=
  isortIdx_perm _ _

theorem argsort_length (x : List ℚ) : (argsort x).length = x.length := by
  have h := (argsort_perm x).length_eq
  simpa using h

theorem mem_argsort_of_lt (x : List ℚ) (i : ℕ) (hi : i < x.length) :
    i ∈ argsort x := by
  have : i ∈ List.range x.length := List.mem_range.mpr hi
  exact ((argsort_perm x).mem_iff).mpr this

/-- Each entry of `compute_ranks x` is a valid position, i.e. `< len(x)`. -/
theorem mem_compute_ranks_lt (x : List ℚ) (r : ℕ) (hr : r ∈ compute_ranks x) :
    r < x.length := by
  unfold compute_ranks at hr
  obtain ⟨i, hi, rfl⟩ := List.mem_map.mp hr
  rw [List.mem_range] at hi
  have hmem : i ∈ argsort x := mem_argsort_of_lt x i hi
  have hfind : (argsort x).findIdx (fun j => j == i) < (argsort x).length := by
    apply List.findIdx_lt_length_of_exists
    exact ⟨i, hmem, by simp⟩
  rwa [argsort_length] at hfind

/-! ### Invariance of the argsort under order-preserving transforms -/

theorem insertIdxLe_congr (le1 le2 : ℕ → ℕ → Bool) (i : ℕ) :
    ∀ l : List ℕ, (∀ j ∈ l, le1 i j = le2 i j) →
      insertIdxLe le1 i l = insertIdxLe le2 i l := by
  intro l
  induction l with
  | nil => intro _; rfl
  | cons j rest ih =>
    intro h
    unfold insertIdxLe
    rw [h j (by simp)]
    by_cases hj : le2 i j
    · simp [hj]
    · simp only [hj, Bool.false_eq_true, if_neg, not_false_eq_true, ite_false]
      rw [ih (fun k hk => h k (by simp [hk]))]

theorem isortIdx_congr (le1 le2 : ℕ → ℕ → Bool) :
    ∀ l : List ℕ, (∀ i ∈ l, ∀ j ∈ l, le1 i j = le2 i j) →
      isortIdx le1 l = isortIdx le2 l := by
  intro l
  induction l with
  | nil => intro _; rfl
  | cons i rest ih =>
    intro h
    unfold isortIdx
    have hrest : isortIdx le1 rest = isortIdx le2 rest :=
      ih (fun a ha b hb => h a (by simp [ha]) b (by simp [hb]))
    rw [hrest]
    apply insertIdxLe_congr
    intro j hj
    have hjr : j ∈ rest := ((isortIdx_perm le2 rest).mem_iff).mp hj
    exact h i (by simp) j (by simp [hjr])

/-- In-bounds `getD` commutes with `map`, with arbitrary defaults. -/
theorem getD_map_of_lt {α β : Type} (f : α → β) :
    ∀ (l : List α) (i : ℕ), i < l.length → ∀ (d : β) (d0 : α),
      (l.map f).getD i d = f (l.getD i d0) := by
  intro l
  induction l with
  | nil => intro i hi; simp at hi
  | cons a rest ih =>
    intro i hi d d0
    cases i with
    | zero => simp [List.getD]
    | succ k =>
      simp only [List.map_cons, List.getD_cons_succ]
      exact ih k (by simpa using hi) d d0

theorem argsort_map_strictMono (x : List ℚ) (f : ℚ → ℚ) (hf : StrictMono f) :
    argsort (x.map f) = argsort x := by
  unfold argsort
  rw [List.length_map]
  apply isortIdx_congr
  intro i hi j hj
  rw [List.mem_range] at hi hj
  unfold argsortLe
  rw [getD_map_of_lt f x i hi 0 0, getD_map_of_lt f x j hj 0 0]
  apply decide_eq_decide.mpr
  constructor
  · rintro (hlt | ⟨heq, hle⟩)
    · exact Or.inl (hf.lt_iff_lt.mp hlt)
    · exact Or.inr ⟨hf.injective heq, hle⟩
  · rintro (hlt | ⟨heq, hle⟩)
    · exact Or.inl (hf hlt)
    · exact Or.inr ⟨by rw [heq], hle⟩

theorem compute_ranks_map_strictMono (x : List ℚ) (f : ℚ → ℚ) (hf : StrictMono f) :
    compute_ranks (x.map f) = compute_ranks x := by
  unfold compute_ranks
  rw [List.length_map, argsort_map_strictMono x f hf]

/-- Claim C8: for every one-dimensional input `x` with at least 2 elements,
every entry of `compute_centered_ranks x` lies in `[-0.5, 0.5]`, and for
every strictly increasing transform `f` applied elementwise,
`compute_centered_ranks (x.map f)` equals `compute_centered_ranks x`
exactly (scale/outlier invariance). -/
theorem centered_ranks_bounded_and_invariant (x : List ℚ) (h2 : 2 ≤ x.length) :
    (∀ y ∈ compute_centered_ranks x, -(1/2 : ℚ) ≤ y ∧ y ≤ 1/2) ∧
    (∀ f : ℚ → ℚ, StrictMono f →
      compute_centered_ranks (x.map f) = compute_centered_ranks x) := by
  constructor
  · intro y hy
    unfold compute_centered_ranks at hy
    obtain ⟨r, hr, rfl⟩ := List.mem_map.mp hy
    have hlt : r < x.length := mem_compute_ranks_lt x r hr
    have hn : (2 : ℚ) ≤ (x.length : ℚ) := by exact_mod_cast h2
    have hpos : (0 : ℚ) < (x.length : ℚ) - 1 := by linarith
    have hr0 : (0 : ℚ) ≤ (r : ℚ) := Nat.cast_nonneg r
    have hrub : (r : ℚ) ≤ (x.length : ℚ) - 1 := by
      have : (r : ℚ) + 1 ≤ (x.length : ℚ) := by exact_mod_cast hlt
      linarith
    constructor
    · have : (0 : ℚ) ≤ (r : ℚ) / ((x.length : ℚ) - 1) := div_nonneg hr0 (le_of_lt hpos)
      linarith
    · have : (r : ℚ) / ((x.length : ℚ) - 1) ≤ 1 := (div_le_one hpos).mpr hrub
      linarith
  · intro f hf
    unfold compute_centered_ranks
    rw [compute_ranks_map_strictMono x f hf, List.length_map]

/-- Witness for claim C8 at the concrete input `[3, 1, 2]` with the strictly
increasing transform `fun a => a + 1`. -/
theorem centered_ranks_bounded_and_invariant_witness :
    2 ≤ ([3, 1, 2] : List ℚ).length ∧
    (∀ y ∈ compute_centered_ranks ([3, 1, 2] : List ℚ), -(1/2 : ℚ) ≤ y ∧ y ≤ 1/2) ∧
    compute_centered_ranks (([3, 1, 2] : List ℚ).map (fun a => a + 1)) =
      compute_centered_ranks ([3, 1, 2] : List ℚ) :=
  ⟨by decide,
   (centered_ranks_bounded_and_invariant [3, 1, 2] (by decide)).1,
   (centered_ranks_bounded_and_invariant [3, 1, 2] (by decide)).2
     (fun a => a + 1) (fun a b h => add_lt_add_right h 1)⟩

/-! ## StepOptimizer family

The library has two optimizer variants: class-based (`Optimizer`/`Adam`,
used by PEPG via `update(gradient)`, which also mutates the owner's mean
and reports an update ratio) and plain (`SimpleAdam`/`SimpleSGD`, used by
OpenES via `compute_step(gradient)`).  `np.sqrt` is passed explicitly as
`sq`. -/

/-- State of the class-based `Adam(Optimizer)`: hyperparameters from
`Adam.__init__` (defaults `beta1=0.99`, `beta2=0.999`) together with the
`Optimizer.__init__` fields `epsilon=1e-08` and `t=0`. -/
structure AdamState where
  stepsize : ℚ
  beta1 : ℚ
  beta2 : ℚ
  epsilon : ℚ
  t : ℕ
  m : List ℚ
  v : List ℚ
deriving DecidableEq

/-- Embedding of `Adam.__init__(pi, stepsize)` with default hyperparameters. -/
def Adam.init (num_params : ℕ) (stepsize : ℚ) : AdamState :=
  { stepsize := stepsize, beta1 := 99/100, beta2 := 999/1000,
    epsilon := 1/100000000, t := 0, m := vzero num_params, v := vzero num_params }

/-- Embedding of `np.linalg.norm`, with `np.sqrt` abstracted as `sq`. -/
def normApprox (sq : ℚ → ℚ) (l : List ℚ) : ℚ :=
  sq (listSum (l.map (fun a => a * a)))

/-- Embedding of `Adam._compute_step(globalg)`: reads the already-incremented counter
`self.t`, updates moments `m`, `v`, and returns `(step, m', v')`. -/
def Adam.compute_step_impl (sq : ℚ → ℚ) (st : AdamState) (globalg : List ℚ) :
    List ℚ × List ℚ × List ℚ :=
  let a := st.stepsize * sq (1 - st.beta2 ^ st.t) / (1 - st.beta1 ^ st.t)
  let m2 := vadd (smul st.beta1 st.m) (smul (1 - st.beta1) globalg)
  let v2 := vadd (smul st.beta2 st.v) (smul (1 - st.beta2) (vmul globalg globalg))
  (List.zipWith (fun mi vi => -a * mi / (sq vi + st.epsilon)) m2 v2, m2, v2)

/-- Result of one `Optimizer.update(globalg)` call: the new optimizer state,
the computed step, the mutated owner mean `pi.mu`, and the returned ratio. -/
structure AdamUpdate where
  st : AdamState
  step : List ℚ
  mu : List ℚ
  ratio : ℚ
deriving DecidableEq

/-- Embedding of `Optimizer.update(globalg)` for the Adam subclass: `t += 1`, compute the
step, report `norm(step)/(norm(theta)+epsilon)` and set `pi.mu = theta + step`. -/
def Adam.update (sq : ℚ → ℚ) (st : AdamState) (mu globalg : List ℚ) : AdamUpdate :=
  let st1 : AdamState := { st with t := st.t + 1 }
  let r := Adam.compute_step_impl sq st1 globalg
  { st := { st1 with m := r.2.1, v := r.2.2 },
    step := r.1,
    mu := vadd mu r.1,
    ratio := normApprox sq r.1 / (normApprox sq mu + st.epsilon) }

/-- State of the plain `SimpleAdam` (own `t`, `epsilon=1e-08`). -/
structure SimpleAdamState where
  stepsize : ℚ
  beta1 : ℚ
  beta2 : ℚ
  m : List ℚ
  v : List ℚ
  t : ℕ
  epsilon : ℚ
deriving DecidableEq

/-- Embedding of `SimpleAdam.__init__(stepsize, num_params)` with default hyperparameters. -/
def SimpleAdam.init (stepsize : ℚ) (num_params : ℕ) : SimpleAdamState :=
  { stepsize := stepsize, beta1 := 99/100, beta2 := 999/1000,
    m := vzero num_params, v := vzero num_params, t := 0, epsilon := 1/100000000 }

/-- Embedding of `SimpleAdam.compute_step(gradient)`: increments `t`, updates moments and
returns the step together with the mutated state. -/
def SimpleAdam.compute_step (sq : ℚ → ℚ) (st : SimpleAdamState) (gradient : List ℚ) :
    List ℚ × SimpleAdamState :=
  let t2 := st.t + 1
  let a := st.stepsize * sq (1 - st.beta2 ^ t2) / (1 - st.beta1 ^ t2)
  let m2 := vadd (smul st.beta1 st.m) (smul (1 - st.beta1) gradient)
  let v2 := vadd (smul st.beta2 st.v) (smul (1 - st.beta2) (vmul gradient gradient))
  (List.zipWith (fun mi vi => -a * mi / (sq vi + st.epsilon)) m2 v2,
   { st with m := m2, v := v2, t := t2 })

/-- Embedding of `SimpleSGD.compute_step(gradient) = -stepsize * gradient`. -/
def SimpleSGD.compute_step (stepsize : ℚ) (gradient : List ℚ) : List ℚ :=
  smul (-stepsize) gradient

/-- Iterate `Optimizer.update` (class-based Adam) over a sequence of
gradients, collecting the step of every call and the final state. -/
def Adam.runSteps (sq : ℚ → ℚ) : AdamState → List ℚ → List (List ℚ) →
    List (List ℚ) × AdamState
  | st, _, [] => ([], st)
  | st, mu, g :: gs =>
    let u := Adam.update sq st mu g
    let rest := Adam.runSteps sq u.st u.mu gs
    (u.step :: rest.1, rest.2)

/-- Iterate `SimpleAdam.compute_step` over a sequence of gradients,
collecting the step of every call and the final state. -/
def SimpleAdam.runSteps (sq : ℚ → ℚ) : SimpleAdamState → List (List ℚ) →
    List (List ℚ) × SimpleAdamState
  | st, [] => ([], st)
  | st, g :: gs =>
    let p := SimpleAdam.compute_step sq st g
    let rest := SimpleAdam.runSteps sq p.2 gs
    (p.1 :: rest.1, rest.2)

theorem adam_single_step_agree (sq : ℚ → ℚ) (sa : AdamState) (ss : SimpleAdamState)
    (mu g : List ℚ)
    (h1 : sa.stepsize = ss.stepsize) (h2 : sa.beta1 = ss.beta1)
    (h3 : sa.beta2 = ss.beta2) (h4 : sa.epsilon = ss.epsilon)
    (h5 : sa.t = ss.t) (h6 : sa.m = ss.m) (h7 : sa.v = ss.v) :
    (Adam.update sq sa mu g).step = (SimpleAdam.compute_step sq ss g).1 ∧
    (Adam.update sq sa mu g).st.stepsize = (SimpleAdam.compute_step sq ss g).2.stepsize ∧
    (Adam.update sq sa mu g).st.beta1 = (SimpleAdam.compute_step sq ss g).2.beta1 ∧
    (Adam.update sq sa mu g).st.beta2 = (SimpleAdam.compute_step sq ss g).2.beta2 ∧
    (Adam.update sq sa mu g).st.epsilon = (SimpleAdam.compute_step sq ss g).2.epsilon ∧
    (Adam.update sq sa mu g).st.t = (SimpleAdam.compute_step sq ss g).2.t ∧
    (Adam.update sq sa mu g).st.m = (SimpleAdam.compute_step sq ss g).2.m ∧
    (Adam.update sq sa mu g).st.v = (SimpleAdam.compute_step sq ss g).2.v := by
  simp [Adam.update, Adam.compute_step_impl, SimpleAdam.compute_step,
    h1, h2, h3, h4, h5, h6, h7]

theorem adam_runs_agree (sq : ℚ → ℚ) :
    ∀ (gs : List (List ℚ)) (sa : AdamState) (ss : SimpleAdamState) (mu : List ℚ),
    sa.stepsize = ss.stepsize → sa.beta1 = ss.beta1 → sa.beta2 = ss.beta2 →
    sa.epsilon = ss.epsilon → sa.t = ss.t → sa.m = ss.m → sa.v = ss.v →
    (Adam.runSteps sq sa mu gs).1 = (SimpleAdam.runSteps sq ss gs).1 ∧
    (Adam.runSteps sq sa mu gs).2.t = (SimpleAdam.runSteps sq ss gs).2.t ∧
    (Adam.runSteps sq sa mu gs).2.m = (SimpleAdam.runSteps sq ss gs).2.m ∧
    (Adam.runSteps sq sa mu gs).2.v = (SimpleAdam.runSteps sq ss gs).2.v := by
  intro gs
  induction gs with
  | nil =>
    intro sa ss mu h1 h2 h3 h4 h5 h6 h7
    exact ⟨rfl, h5, h6, h7⟩
  | cons g gs ih =>
    intro sa ss mu h1 h2 h3 h4 h5 h6 h7
    have hstep := adam_single_step_agree sq sa ss mu g h1 h2 h3 h4 h5 h6 h7
    have hrest := ih (Adam.update sq sa mu g).st (SimpleAdam.compute_step sq ss g).2
      (Adam.update sq sa mu g).mu
      hstep.2.1 hstep.2.2.1 hstep.2.2.2.1 hstep.2.2.2.2.1
      hstep.2.2.2.2.2.1 hstep.2.2.2.2.2.2.1 hstep.2.2.2.2.2.2.2
    refine ⟨?_, hrest.2.1, hrest.2.2.1, hrest.2.2.2⟩
    simp only [Adam.runSteps, SimpleAdam.runSteps]
    rw [hstep.1]
    exact congrArg _ hrest.1

/-- Claim C9: the class-based `Adam` (used through `update(gradient)`) and
the plain `SimpleAdam` (used through `compute_step(gradient)`) compute
functionally equivalent math: constructed with the same stepsize and
dimension and the default hyperparameters (`beta1=0.99`, `beta2=0.999`,
`epsilon=1e-8`), and fed the same finite sequence of gradient vectors
(`gs`, an arbitrary finite sequence, hence also every prefix), the step
produced at every call by `Adam._compute_step` inside `update` equals the
step returned by `SimpleAdam.compute_step`, and the moment states
`(m, v, t)` agree after every call.  `sq` is the shared `np.sqrt` and
`mu0` the arbitrary mean owned by the class-based variant's owner object. -/
theorem adam_class_and_simple_equivalent (sq : ℚ → ℚ) (stepsize : ℚ) (num_params : ℕ)
    (mu0 : List ℚ) (gs : List (List ℚ)) :
    (Adam.runSteps sq (Adam.init num_params stepsize) mu0 gs).1 =
      (SimpleAdam.runSteps sq (SimpleAdam.init stepsize num_params) gs).1 ∧
    (Adam.runSteps sq (Adam.init num_params stepsize) mu0 gs).2.t =
      (SimpleAdam.runSteps sq (SimpleAdam.init stepsize num_params) gs).2.t ∧
    (Adam.runSteps sq (Adam.init num_params stepsize) mu0 gs).2.m =
      (SimpleAdam.runSteps sq (SimpleAdam.init stepsize num_params) gs).2.m ∧
    (Adam.runSteps sq (Adam.init num_params stepsize) mu0 gs).2.v =
      (SimpleAdam.runSteps sq (SimpleAdam.init stepsize num_params) gs).2.v :=
  adam_runs_agree sq gs (Adam.init num_params stepsize)
    (SimpleAdam.init stepsize num_params) mu0 rfl rfl rfl rfl rfl rfl rfl

/-! ## NSRAES adaptive weight (`NSRAES.update_bests`) -/

/-- The fields of `NSAbstract`/`NSRAES` touched by `NSRAES.update_bests`. -/
structure NSRAESState where
  best_reward : ℚ
  best : List ℚ
  weight : ℚ
  weight_change : ℚ
  best_time : ℕ
  weight_change_threshold : ℕ
deriving DecidableEq

/-- Python's binary `min(a, b)`. -/
def pymin (a b : ℚ) : ℚ := if a ≤ b then a else b

/-- Embedding of `NSRAES.update_bests(fitness, new_sol)`: on strict improvement record the
best, reset the stagnation counter and set `weight = min(1, weight +
weight_change)`; otherwise increment the counter; when the counter reaches
`weight_change_threshold`, set `weight = min(0, weight - weight_change)`
(sic: the source says `min`, not `max`) and reset the counter. -/
def NSRAES.update_bests (st : NSRAESState) (fitness : ℚ) (new_sol : List ℚ) :
    NSRAESState :=
  let st1 :=
    if st.best_reward < fitness then
      { st with best_reward := fitness, best := new_sol, best_time := 0,
                weight := pymin 1 (st.weight + st.weight_change) }
    else { st with best_time := st.best_time + 1 }
  if st1.weight_change_threshold ≤ st1.best_time then
    { st1 with weight := pymin 0 (st1.weight - st1.weight_change), best_time := 0 }
  else st1

/-- Claim C2 (code bug evidence): with `weight_change = 0.05` and
`weight_change_threshold = 2`, two consecutive non-improving updates from
weight 1 set the weight to `min(0, 1 - 0.05) = 0` instead of decreasing it
by `weight_change` to `0.95`; and from weight `0.01` they set it to
`-0.04 < 0`, violating the claimed lower cap at 0.  The `min` in the
stagnation branch is evidently an intended `max` (mirroring the
`min(1, ...)` cap of the improvement branch). -/
theorem nsraes_weight_not_capped_below_at_zero :
    (NSRAES.update_bests (NSRAES.update_bests
        { best_reward := 0, best := [], weight := 1, weight_change := 1/20,
          best_time := 0, weight_change_threshold := 2 } 0 []) 0 []).weight = 0 ∧
    (NSRAES.update_bests (NSRAES.update_bests
        { best_reward := 0, best := [], weight := 1/100, weight_change := 1/20,
          best_time := 0, weight_change_threshold := 2 } 0 []) 0 []).weight = -(1/25) ∧
    (-(1/25) : ℚ) < 0 := by
  norm_num [NSRAES.update_bests, pymin]

/-! ## Novelty metric (`NSAbstract.calculate_novelty`)

The source loop is:

    distances = []
    for solution_characteristics in self.characteristics:
        if solution_characteristics == characteristic:
            distances.append(0)
            continue
        distances = scp.spatial.distance.cdist(solution_characteristics, characteristic)
        mean_distance = np.mean(distances)
        distances.append(mean_distance)

The embedding follows Python/numpy semantics: `row == characteristic` on
arrays of size > 1 is an elementwise comparison whose use as an `if`
condition raises `ValueError` (`ambiguousTruthValue`); for size-1 arrays it
behaves as a scalar comparison.  `cdist` on one-dimensional inputs raises
`ValueError` (`cdistNeeds2D`); were it to succeed, the rebinding of
`distances` to an ndarray would make the following `.append` raise
`AttributeError` (`ndarrayHasNoAppend`, kept in the error type for
documentation — unreachable because `cdist` raises first).
`np.partition(d, kth=k)` requires `k < len(d)` (`partitionKthOutOfBounds`);
on success its first `k` entries are the `k` smallest, so their mean is the
mean of the sorted prefix. -/

inductive PyEvalError where
  | ambiguousTruthValue
  | cdistNeeds2D
  | ndarrayHasNoAppend
  | partitionKthOutOfBounds
deriving DecidableEq

/-- The `for solution_characteristics in self.characteristics` loop of
`calculate_novelty`, accumulating the Python list `distances`. -/
def NSAbstract.noveltyDistances (characteristic : List ℚ) :
    List (List ℚ) → List ℚ → Except PyEvalError (List ℚ)
  | [], acc => Except.ok acc
  | row :: rest, acc =>
    if 1 < row.length ∨ 1 < characteristic.length then
      Except.error PyEvalError.ambiguousTruthValue
    else if row = characteristic then
      NSAbstract.noveltyDistances characteristic rest (acc ++ [0])
    else
      Except.error PyEvalError.cdistNeeds2D

/-- Insertion into a sorted rational list. -/
def insertQ (a : ℚ) : List ℚ → List ℚ
  | [] => [a]
  | b :: rest => if a ≤ b then a :: b :: rest else b :: insertQ a rest

/-- Insertion sort of a rational list (ascending). -/
def sortQ (l : List ℚ) : List ℚ := l.foldr insertQ []

/-- Embedding of `NSAbstract.calculate_novelty(characteristic)` against a stored archive
`characteristics` with configuration constant `k`: run the distance loop,
then `np.partition(distances, k)[:k]` and `np.mean`. -/
def NSAbstract.calculate_novelty (k : ℕ) (characteristics : List (List ℚ))
    (characteristic : List ℚ) : Except PyEvalError ℚ :=
  match NSAbstract.noveltyDistances characteristic characteristics [] with
  | Except.error e => Except.error e
  | Except.ok distances =>
    if distances.length ≤ k then Except.error PyEvalError.partitionKthOutOfBounds
    else Except.ok (listMean ((sortQ distances).take k))

/-- Claim C7 (code bug evidence): `calculate_novelty` raises instead of
returning the k-NN novelty.  With `k = 5`, a one-dimensional archive of 6
entries `[[0],[1],[2],[3],[4],[5]]` and query `[0]`, the first differing
archive row reaches the `cdist` call on one-dimensional inputs, which
raises `ValueError` — the claim expects the mean of the 5 nearest distances
(2) instead.  For characteristics of dimension ≥ 2 the `==` comparison in
the `if` raises the ambiguous-truth-value `ValueError` on the first row. -/
theorem calculate_novelty_raises :
    NSAbstract.calculate_novelty 5 [[0], [1], [2], [3], [4], [5]] [0] =
      Except.error PyEvalError.cdistNeeds2D ∧
    NSAbstract.calculate_novelty 1 [[0, 0], [1, 1]] [2, 2] =
      Except.error PyEvalError.ambiguousTruthValue := by
  constructor
  · rfl
  · rfl

/-! ## OpenES

`OpenES.tell` consults its inner StepOptimizer only through
`self.optimizer.compute_step(gradient)`; the embedding abstracts the
optimizer chosen by the factory as the function `optStep` giving the step
for the current call (`SimpleSGD.compute_step stepsize` for the plain SGD
choice, a partially applied `SimpleAdam.compute_step` for Adam, ...).
The random draw `np.random.randn(...)` of `ask` is passed in as `randn`. -/

structure OpenESState where
  num_params : ℕ
  popsize : ℕ
  mu : List ℚ
  sigma : ℚ
  sigma_init : ℚ
  sigma_decay : ℚ
  sigma_limit : ℚ
  learning_rate : ℚ
  learning_rate_decay : ℚ
  learning_rate_limit : ℚ
  antithetic : Bool
  weight_decay : ℚ
  rank_fitness : Bool
  forget_best : Bool
  first_interation : Bool
  best_mu : List ℚ
  best_reward : ℚ
  curr_best_mu : List ℚ
  curr_best_reward : ℚ
  epsilon : List (List ℚ)
  solutions : List (List ℚ)

/-- Embedding of `OpenES.ask()`: draw noise (mirrored halves when antithetic), record it,
and return `mu + epsilon * sigma` row-wise. -/
def OpenES.ask (randn : List (List ℚ)) (st : OpenESState) :
    OpenESState × List (List ℚ) :=
  let epsilon := if st.antithetic then randn ++ randn.map vneg else randn
  let solutions := epsilon.map (fun e => vadd st.mu (smul st.sigma e))
  ({ st with epsilon := epsilon, solutions := solutions }, solutions)

/-- Body of `OpenES.tell` after the population-size assert: optional rank
shaping and weight decay, best tracking (`idx[0]` of the descending argsort
is the last element of the ascending one), the pseudo-gradient
`(1/(popsize*sigma)) * epsilon.T . centered_ranks(reward)`, the mean update
`mu -= optimizer.compute_step(gradient)`, and the one-sided sigma and
learning-rate decays. -/
def OpenES.tellCore (optStep : List ℚ → List ℚ) (st : OpenESState)
    (scores : List ℚ) : OpenESState :=
  let reward1 := if st.rank_fitness then compute_centered_ranks scores else scores
  let reward := if 0 < st.weight_decay then
      vadd reward1 (compute_weight_decay st.weight_decay st.solutions)
    else reward1
  let i0 := (argsort reward).getLastD 0
  let curr_best_reward := reward.getD i0 0
  let curr_best_mu := st.solutions.getD i0 (vzero st.num_params)
  let hist := if st.first_interation then (false, curr_best_reward, curr_best_mu)
    else if st.forget_best ∨ st.best_reward < curr_best_reward then
      (st.first_interation, curr_best_reward, curr_best_mu)
    else (st.first_interation, st.best_reward, st.best_mu)
  let normalized_reward := compute_centered_ranks reward
  let gradient := smul (1 / ((st.popsize : ℚ) * st.sigma))
    (matTvec st.num_params st.epsilon normalized_reward)
  let mu2 := vsub st.mu (optStep gradient)
  let sigma2 := if st.sigma_limit < st.sigma then st.sigma * st.sigma_decay else st.sigma
  let lr2 := if st.learning_rate_limit < st.learning_rate then
      st.learning_rate * st.learning_rate_decay
    else st.learning_rate
  { st with
    mu := mu2, sigma := sigma2, learning_rate := lr2,
    first_interation := hist.1, best_reward := hist.2.1, best_mu := hist.2.2,
    curr_best_reward := curr_best_reward, curr_best_mu := curr_best_mu }

/-- Embedding of `OpenES.tell(reward_table_result)`: the `assert len(reward_table_result)
== self.popsize` is the first statement of the method, before any state
mutation. -/
def OpenES.tell (optStep : List ℚ → List ℚ) (st : OpenESState)
    (scores : List ℚ) : Except String OpenESState :=
  if scores.length ≠ st.popsize then
    Except.error "Inconsistent reward_table size reported."
  else Except.ok (OpenES.tellCore optStep st scores)

/-- Python exception semantics of a `tell` call: a raised `AssertionError`
propagates to the caller and the strategy object is left exactly as it was
(the assert precedes every assignment). -/
def OpenES.tellPy (optStep : List ℚ → List ℚ) (st : OpenESState)
    (scores : List ℚ) : OpenESState × Option String :=
  match OpenES.tell optStep st scores with
  | Except.ok st2 => (st2, none)
  | Except.error e => (st, some e)

/-- A sequence of `tell()` calls (each with its own optimizer step function
and scores), failed calls leaving the state unchanged.  `ask()` never
touches `sigma`, so interleaving asks is irrelevant to the sigma floor. -/
def OpenES.runTells (ins : List ((List ℚ → List ℚ) × List ℚ))
    (st : OpenESState) : OpenESState :=
  ins.foldl (fun s p => (OpenES.tellPy p.1 s p.2).1) st

/-! ## SimpleGA

Randomness is passed in explicitly: `randn i j` is the standard-normal draw
for gene `j` of child `i`, `pick k` is the raw draw behind the `k`-th
`np.random.choice` call, and `coin i k` is `np.random.rand(...)[k] > 0.5`
inside `mate` for child `i`. -/

structure SimpleGAState where
  num_params : ℕ
  popsize : ℕ
  elite_popsize : ℕ
  sigma : ℚ
  sigma_init : ℚ
  sigma_decay : ℚ
  sigma_limit : ℚ
  elite_params : List (List ℚ)
  elite_rewards : List ℚ
  best_param : List ℚ
  best_reward : ℚ
  curr_best_reward : ℚ
  first_iteration : Bool
  forget_best : Bool
  weight_decay : ℚ
  epsilon : List (List ℚ)
  solutions : List (List ℚ)

/-- Embedding of `SimpleGA.__init__`: `elite_popsize = int(popsize * elite_ratio)`, zero
elites and best, `first_iteration = True`.  (`curr_best_reward` is not set
by `__init__`; it defaults to 0 here and is only read after a `tell`.) -/
def SimpleGA.init (num_params : ℕ) (sigma_init sigma_decay sigma_limit : ℚ)
    (popsize : ℕ) (elite_ratio : ℚ) (forget_best : Bool) (weight_decay : ℚ) :
    SimpleGAState :=
  let elite_popsize := (pyInt ((popsize : ℚ) * elite_ratio)).toNat
  { num_params := num_params, popsize := popsize, elite_popsize := elite_popsize,
    sigma := sigma_init, sigma_init := sigma_init, sigma_decay := sigma_decay,
    sigma_limit := sigma_limit,
    elite_params := List.replicate elite_popsize (vzero num_params),
    elite_rewards := List.replicate elite_popsize 0,
    best_param := vzero num_params, best_reward := 0, curr_best_reward := 0,
    first_iteration := true, forget_best := forget_best,
    weight_decay := weight_decay, epsilon := [], solutions := [] }

/-- Embedding of `np.random.choice(range(n))`: raises `ValueError("a must be non-empty")`
when `n = 0`; otherwise an arbitrary draw from the external generator,
modelled as `r % n` for the raw draw `r`. -/
def npChoiceRange (n : ℕ) (r : ℕ) : Except String ℕ :=
  if n = 0 then Except.error "a must be non-empty" else Except.ok (r % n)

/-- Embedding of `mate(a, b)`: copy `a` and overwrite with `b` at the positions where the
uniform draw exceeds 0.5 (`coin`). -/
def SimpleGA.mate (coin : ℕ → Bool) : ℕ → List ℚ → List ℚ → List ℚ
  | _, [], _ => []
  | _, a, [] => a
  | k, x :: xs, y :: ys =>
    (if coin k then y else x) :: SimpleGA.mate coin (k + 1) xs ys

/-- The `for i in range(popsize)` loop of `SimpleGA.ask`: two uniform elite
choices, crossover, plus the mutation noise row. -/
def SimpleGA.children (pick : ℕ → ℕ) (coin : ℕ → ℕ → Bool) (st : SimpleGAState)
    (epsilon : List (List ℚ)) : List ℕ → Except String (List (List ℚ))
  | [] => Except.ok []
  | i :: rest => do
    let idx_a ← npChoiceRange st.elite_popsize (pick (2 * i))
    let idx_b ← npChoiceRange st.elite_popsize (pick (2 * i + 1))
    let child := SimpleGA.mate (coin i) 0
      (st.elite_params.getD idx_a (vzero st.num_params))
      (st.elite_params.getD idx_b (vzero st.num_params))
    let rest2 ← SimpleGA.children pick coin st epsilon rest
    Except.ok (vadd child (epsilon.getD i (vzero st.num_params)) :: rest2)

/-- Embedding of `SimpleGA.ask()`: draw the mutation noise `epsilon = randn * sigma`,
then build `popsize` children by elite crossover plus noise. -/
def SimpleGA.ask (randn : ℕ → ℕ → ℚ) (pick : ℕ → ℕ) (coin : ℕ → ℕ → Bool)
    (st : SimpleGAState) : Except String (SimpleGAState × List (List ℚ)) :=
  let epsilon := (List.range st.popsize).map (fun i =>
    (List.range st.num_params).map (fun j => randn i j * st.sigma))
  match SimpleGA.children pick coin st epsilon (List.range st.popsize) with
  | Except.error e => Except.error e
  | Except.ok sols =>
    Except.ok ({ st with epsilon := epsilon, solutions := sols }, sols)

/-- Body of `SimpleGA.tell` after the population-size assert: optional
weight decay, pool with previous elites unless `forget_best` or first
iteration, re-select the elite set from the descending argsort, track the
best, decay sigma one-sidedly. -/
def SimpleGA.tellCore (st : SimpleGAState) (scores : List ℚ) : SimpleGAState :=
  let reward_table := if 0 < st.weight_decay then
      vadd scores (compute_weight_decay st.weight_decay st.solutions)
    else scores
  let rs := if st.forget_best ∨ st.first_iteration then (reward_table, st.solutions)
    else (reward_table ++ st.elite_rewards, st.solutions ++ st.elite_params)
  let idx := ((argsort rs.1).reverse).take st.elite_popsize
  let elite_rewards2 := idx.map (fun i => rs.1.getD i 0)
  let elite_params2 := idx.map (fun i => rs.2.getD i (vzero st.num_params))
  let curr := elite_rewards2.getD 0 0
  let hist := if st.first_iteration ∨ st.best_reward < curr then
      (false, curr, elite_params2.getD 0 (vzero st.num_params))
    else (st.first_iteration, st.best_reward, st.best_param)
  let sigma2 := if st.sigma_limit < st.sigma then st.sigma * st.sigma_decay else st.sigma
  { st with
    elite_rewards := elite_rewards2, elite_params := elite_params2,
    curr_best_reward := curr, first_iteration := hist.1,
    best_reward := hist.2.1, best_param := hist.2.2, sigma := sigma2 }

/-- Embedding of `SimpleGA.tell(reward_table_result)`: the size assert is the first
statement, before any state mutation. -/
def SimpleGA.tell (st : SimpleGAState) (scores : List ℚ) :
    Except String SimpleGAState :=
  if scores.length ≠ st.popsize then
    Except.error "Inconsistent reward_table size reported."
  else Except.ok (SimpleGA.tellCore st scores)

/-- Python exception semantics of `SimpleGA.tell`: a raised assert leaves
the object unchanged. -/
def SimpleGA.tellPy (st : SimpleGAState) (scores : List ℚ) :
    SimpleGAState × Option String :=
  match SimpleGA.tell st scores with
  | Except.ok st2 => (st2, none)
  | Except.error e => (st, some e)

/-- A sequence of `SimpleGA.tell()` calls, failed calls leaving the state
unchanged (`ask` never touches `sigma`). -/
def SimpleGA.runTells (ins : List (List ℚ)) (st : SimpleGAState) : SimpleGAState :=
  ins.foldl (fun s scores => (SimpleGA.tellPy s scores).1) st

/-! ### Python attribute semantics of `SimpleGA.best_param` -/

/-- What the name `best_param` can resolve to on a `SimpleGA` object:
the ndarray instance attribute or the class-level method. -/
inductive GAAttr where
  | ndarrayAttr (v : List ℚ)
  | methodAttr (f : SimpleGAState → List ℚ)

/-- The class-level method body `def best_param(self): return self.best_param`
(itself reading the instance attribute). -/
def SimpleGA.best_param_method (st : SimpleGAState) : List ℚ := st.best_param

/-- CPython attribute lookup for `ga.best_param`: the instance `__dict__`
takes precedence over the class, and `SimpleGA.__init__` stored the ndarray
`self.best_param = np.zeros(num_params)` there (updated by `tell`), so the
lookup yields the data attribute, never the method. -/
def SimpleGA.lookup_best_param (st : SimpleGAState) : GAAttr :=
  GAAttr.ndarrayAttr st.best_param

/-- Calling the looked-up attribute with no arguments: a bound method runs
its body; an ndarray is not callable, so the call raises `TypeError`,
modelled as `none`. -/
def GAAttr.callNoArgs (st : SimpleGAState) : GAAttr → Option (List ℚ)
  | GAAttr.methodAttr f => some (f st)
  | GAAttr.ndarrayAttr _ => none

/-! ## PEPG

Per-dimension sigma, antithetic sampling with an explicit baseline, and the
class-based Adam optimizer (`Adam(self, learning_rate)`) mutating the mean
in place through `Optimizer.update`. -/

/-- Python's binary `max(a, b)` / elementwise `np.maximum`. -/
def pymax (a b : ℚ) : ℚ := if a ≤ b then b else a

structure PEPGState where
  num_params : ℕ
  popsize : ℕ
  batch_size : ℕ
  elite_popsize : ℕ
  use_elite : Bool
  average_baseline : Bool
  rank_fitness : Bool
  forget_best : Bool
  first_interation : Bool
  sigma : List ℚ
  sigma_init : ℚ
  sigma_alpha : ℚ
  sigma_decay : ℚ
  sigma_limit : ℚ
  sigma_max_change : ℚ
  learning_rate : ℚ
  learning_rate_decay : ℚ
  learning_rate_limit : ℚ
  weight_decay : ℚ
  mu : List ℚ
  curr_best_mu : List ℚ
  best_mu : List ℚ
  best_reward : ℚ
  curr_best_reward : ℚ
  epsilon : List (List ℚ)
  epsilon_full : List (List ℚ)
  solutions : List (List ℚ)
  optimizer : AdamState

/-- Embedding of `PEPG.__init__`: asserts even `popsize` when `average_baseline` (batch =
popsize/2) and odd `popsize` otherwise (batch = (popsize-1)/2); elites from
`int(popsize * elite_ratio)`; `forget_best` forced on under rank fitness;
per-dimension `sigma = ones * sigma_init`; Adam optimizer on itself. -/
def PEPG.init (num_params : ℕ)
    (sigma_init sigma_alpha sigma_decay sigma_limit sigma_max_change
      learning_rate learning_rate_decay learning_rate_limit elite_ratio : ℚ)
    (popsize : ℕ) (average_baseline : Bool) (weight_decay : ℚ)
    (rank_fitness forget_best : Bool) : Except String PEPGState :=
  if average_baseline ∧ popsize % 2 ≠ 0 then
    Except.error "Population size must be even"
  else if ¬average_baseline ∧ popsize % 2 ≠ 1 then
    Except.error "Population size must be odd"
  else
    let batch_size := if average_baseline then popsize / 2 else (popsize - 1) / 2
    let elite_popsize := (pyInt ((popsize : ℚ) * elite_ratio)).toNat
    Except.ok
      { num_params := num_params, popsize := popsize, batch_size := batch_size,
        elite_popsize := elite_popsize, use_elite := decide (0 < elite_popsize),
        average_baseline := average_baseline, rank_fitness := rank_fitness,
        forget_best := if rank_fitness then true else forget_best,
        first_interation := true,
        sigma := List.replicate num_params sigma_init,
        sigma_init := sigma_init, sigma_alpha := sigma_alpha,
        sigma_decay := sigma_decay, sigma_limit := sigma_limit,
        sigma_max_change := sigma_max_change,
        learning_rate := learning_rate,
        learning_rate_decay := learning_rate_decay,
        learning_rate_limit := learning_rate_limit,
        weight_decay := weight_decay,
        mu := vzero num_params, curr_best_mu := vzero num_params,
        best_mu := vzero num_params, best_reward := 0, curr_best_reward := 0,
        epsilon := [], epsilon_full := [], solutions := [],
        optimizer := Adam.init num_params learning_rate }

/-- Embedding of `PEPG.ask()`: `epsilon = randn(batch_size, num_params) * sigma`,
mirrored into `epsilon_full`; when `average_baseline` is off, a zero row
(the unperturbed mean) is prepended; returns `mu + epsilon` row-wise. -/
def PEPG.ask (randn : List (List ℚ)) (st : PEPGState) :
    PEPGState × List (List ℚ) :=
  let epsilon := randn.map (fun row => vmul row st.sigma)
  let epsilon_full := epsilon ++ epsilon.map vneg
  let eps := if st.average_baseline then epsilon_full
    else vzero st.num_params :: epsilon_full
  let solutions := eps.map (fun e => vadd st.mu e)
  ({ st with
     epsilon := epsilon, epsilon_full := epsilon_full,
     solutions := solutions }, solutions)

/-- Body of `PEPG.tell` after the population-size assert.  Follows the
source line by line: rank shaping, weight decay, baseline `b` (batch mean
or the first, unperturbed sample), best tracking against the baseline,
first-iteration sigma reset, elite or Adam mean update
(`optimizer.stepsize = learning_rate; optimizer.update(-change_mu)`),
adaptive sigma with the `±sigma_max_change*sigma` clamp (skipped unless
`sigma_alpha > 0`), per-dimension one-sided sigma decay (only when
`sigma_decay < 1`), learning-rate decay.  The source's `stdev_reward`
assignment is dead code (never read) and is omitted. -/
def PEPG.tellCore (sq : ℚ → ℚ) (st : PEPGState) (scores : List ℚ) : PEPGState :=
  let rt1 := if st.rank_fitness then compute_centered_ranks scores else scores
  let reward_table := if 0 < st.weight_decay then
      vadd rt1 (compute_weight_decay st.weight_decay st.solutions)
    else rt1
  let b := if st.average_baseline then listMean reward_table
    else reward_table.getD 0 0
  let reward := if st.average_baseline then reward_table else reward_table.drop 1
  let idx := if st.use_elite then ((argsort reward).reverse).take st.elite_popsize
    else (argsort reward).reverse
  let i0 := idx.getD 0 0
  let bcand := if b < reward.getD i0 0 ∨ st.average_baseline then
      (vadd st.mu (st.epsilon_full.getD i0 (vzero st.num_params)), reward.getD i0 0)
    else (st.mu, b)
  let curr_best_mu := bcand.1
  let curr_best_reward := bcand.2
  let sigma1 := if st.first_interation then
      List.replicate st.num_params st.sigma_init
    else st.sigma
  let hist := if st.first_interation then (false, curr_best_reward, curr_best_mu)
    else if st.forget_best ∨ st.best_reward < curr_best_reward then
      (st.first_interation, curr_best_reward, curr_best_mu)
    else (st.first_interation, st.best_reward, st.best_mu)
  let upd := if st.use_elite then
      (vadd st.mu (colMean st.num_params
        (idx.map (fun i => st.epsilon_full.getD i (vzero st.num_params)))),
       st.optimizer)
    else
      let rT := vsub (reward.take st.batch_size) (reward.drop st.batch_size)
      let change_mu := smul (1/2) (matTvec st.num_params st.epsilon rT)
      let opt1 : AdamState := { st.optimizer with stepsize := st.learning_rate }
      let u := Adam.update sq opt1 st.mu (vneg change_mu)
      (u.mu, u.st)
  let sigma2 := if 0 < st.sigma_alpha then
      let S := st.epsilon.map (fun e =>
        List.zipWith (fun ei si => (ei * ei - si * si) / si) e sigma1)
      let reward_avg := smul (1/2)
        (vadd (reward.take st.batch_size) (reward.drop st.batch_size))
      let rS := reward_avg.map (fun r => r - b)
      let delta_sigma := matTvec st.num_params S rS
      let change_sigma0 := smul st.sigma_alpha delta_sigma
      let change_sigma1 := List.zipWith pymin change_sigma0
        (smul st.sigma_max_change sigma1)
      let change_sigma2 := List.zipWith pymax change_sigma1
        (smul (-st.sigma_max_change) sigma1)
      vadd sigma1 change_sigma2
    else sigma1
  let sigma3 := if st.sigma_decay < 1 then
      sigma2.map (fun s => if st.sigma_limit < s then s * st.sigma_decay else s)
    else sigma2
  let lr2 := if st.learning_rate_decay < 1 ∧ st.learning_rate_limit < st.learning_rate
    then st.learning_rate * st.learning_rate_decay
    else st.learning_rate
  { st with
    curr_best_mu := curr_best_mu, curr_best_reward := curr_best_reward,
    first_interation := hist.1, best_reward := hist.2.1, best_mu := hist.2.2,
    mu := upd.1, optimizer := upd.2, sigma := sigma3, learning_rate := lr2 }

/-- Embedding of `PEPG.tell(reward_table_result)`: the size assert is the first
statement, before any state mutation. -/
def PEPG.tell (sq : ℚ → ℚ) (st : PEPGState) (scores : List ℚ) :
    Except String PEPGState :=
  if scores.length ≠ st.popsize then
    Except.error "Inconsistent reward_table size reported."
  else Except.ok (PEPG.tellCore sq st scores)

/-- Python exception semantics of `PEPG.tell`: a raised assert leaves the
object unchanged. -/
def PEPG.tellPy (sq : ℚ → ℚ) (st : PEPGState) (scores : List ℚ) :
    PEPGState × Option String :=
  match PEPG.tell sq st scores with
  | Except.ok st2 => (st2, none)
  | Except.error e => (st, some e)

/-- A sequence of `PEPG.tell()` calls, failed calls leaving the state
unchanged (`ask` never touches `sigma`). -/
def PEPG.runTells (sq : ℚ → ℚ) (ins : List (List ℚ)) (st : PEPGState) : PEPGState :=
  ins.foldl (fun s scores => (PEPG.tellPy sq s scores).1) st

/-! ## Concrete sample states shared by witnesses and counterexamples -/

/-- A concrete `OpenES` state: 2 candidates, 1 parameter, `sigma = 0.015`
just above `sigma_limit = 0.01`, `sigma_decay = 0.5`, raw fitness, no
weight decay, noise `[[1], [-1]]` recorded by the last `ask`. -/
def sampleOpenES : OpenESState :=
  { num_params := 1, popsize := 2, mu := [0], sigma := 3/200,
    sigma_init := 3/200, sigma_decay := 1/2, sigma_limit := 1/100,
    learning_rate := 1/100, learning_rate_decay := 1,
    learning_rate_limit := 1/1000, antithetic := false, weight_decay := 0,
    rank_fitness := false, forget_best := true, first_interation := true,
    best_mu := [0], best_reward := 0, curr_best_mu := [0],
    curr_best_reward := 0, epsilon := [[1], [-1]],
    solutions := [[3/200], [-(3/200)]] }

/-- A concrete `SimpleGA` state: 2 candidates, 1 parameter, one elite. -/
def sampleGA : SimpleGAState :=
  { num_params := 1, popsize := 2, elite_popsize := 1, sigma := 1/10,
    sigma_init := 1/10, sigma_decay := 999/1000, sigma_limit := 1/100,
    elite_params := [[0]], elite_rewards := [0], best_param := [0],
    best_reward := 0, curr_best_reward := 0, first_iteration := true,
    forget_best := false, weight_decay := 0, epsilon := [[1], [-1]],
    solutions := [[1/10], [-(1/10)]] }

/-- A concrete `PEPG` state with `average_baseline` (popsize 2, batch 1),
`sigma_alpha = 0` and per-dimension sigma `[0.015]` above the limit. -/
def samplePEPG : PEPGState :=
  { num_params := 1, popsize := 2, batch_size := 1, elite_popsize := 0,
    use_elite := false, average_baseline := true, rank_fitness := true,
    forget_best := true, first_interation := false,
    sigma := [3/200], sigma_init := 3/200, sigma_alpha := 0,
    sigma_decay := 1/2, sigma_limit := 1/100, sigma_max_change := 1/5,
    learning_rate := 1/100, learning_rate_decay := 9999/10000,
    learning_rate_limit := 1/100, weight_decay := 0,
    mu := [0], curr_best_mu := [0], best_mu := [0], best_reward := 0,
    curr_best_reward := 0, epsilon := [[1/100]],
    epsilon_full := [[1/100], [-(1/100)]],
    solutions := [[1/100], [-(1/100)]], optimizer := Adam.init 1 (1/100) }

/-- A concrete `PEPG` state with `average_baseline = False`: odd popsize 3,
batch 1, so `ask` prepends the unperturbed mean. -/
def samplePEPGOdd : PEPGState :=
  { num_params := 1, popsize := 3, batch_size := 1, elite_popsize := 0,
    use_elite := false, average_baseline := false, rank_fitness := true,
    forget_best := true, first_interation := true,
    sigma := [3/200], sigma_init := 3/200, sigma_alpha := 0,
    sigma_decay := 1/2, sigma_limit := 1/100, sigma_max_change := 1/5,
    learning_rate := 1/100, learning_rate_decay := 9999/10000,
    learning_rate_limit := 1/100, weight_decay := 0,
    mu := [0], curr_best_mu := [0], best_mu := [0], best_reward := 0,
    curr_best_reward := 0, epsilon := [], epsilon_full := [],
    solutions := [], optimizer := Adam.init 1 (1/100) }

/-- Claim C4: in `OpenES.tell(scores)` the mean update is
`mu -= optimizer.compute_step(g)` with pseudo-gradient
`g = (1/(popsize*sigma)) * epsilon.T . centered_ranks(reward)`, where
`reward` is the scores passed to `tell` after the optional rank-fitness
replacement and optional weight-decay addend. -/
theorem openes_tell_mean_update (optStep : List ℚ → List ℚ) (st : OpenESState)
    (scores : List ℚ) (h : scores.length = st.popsize) :
    (OpenES.tell optStep st scores).map OpenESState.mu =
      Except.ok (vsub st.mu (optStep (smul (1 / ((st.popsize : ℚ) * st.sigma))
        (matTvec st.num_params st.epsilon (compute_centered_ranks
          (let reward1 := if st.rank_fitness then compute_centered_ranks scores
             else scores
           if 0 < st.weight_decay then
             vadd reward1 (compute_weight_decay st.weight_decay st.solutions)
           else reward1)))))) := by
  unfold OpenES.tell
  rw [if_neg (not_ne_iff.mpr h)]
  rfl

/-- Witness for claim C4 at `sampleOpenES` with the plain-SGD optimizer and
scores `[1, 0]`. -/
theorem openes_tell_mean_update_witness :
    ([1, 0] : List ℚ).length = sampleOpenES.popsize ∧
    (OpenES.tell (SimpleSGD.compute_step (1/100)) sampleOpenES [1, 0]).map
        OpenESState.mu =
      Except.ok (vsub sampleOpenES.mu (SimpleSGD.compute_step (1/100)
        (smul (1 / ((sampleOpenES.popsize : ℚ) * sampleOpenES.sigma))
        (matTvec sampleOpenES.num_params sampleOpenES.epsilon
          (compute_centered_ranks
          (let reward1 := if sampleOpenES.rank_fitness then
              compute_centered_ranks [1, 0] else [1, 0]
           if 0 < sampleOpenES.weight_decay then
             vadd reward1 (compute_weight_decay sampleOpenES.weight_decay
               sampleOpenES.solutions)
           else reward1)))))) :=
  ⟨rfl, openes_tell_mean_update (SimpleSGD.compute_step (1/100)) sampleOpenES
    [1, 0] rfl⟩

/-- Claim C6: for OpenES, PEPG and SimpleGA, a `tell()` whose scores length
differs from `popsize` fails with the size-mismatch assert and — the assert
being the first statement of each `tell` — leaves the strategy state
completely unchanged. -/
theorem tell_wrong_length_all_or_nothing :
    (∀ (optStep : List ℚ → List ℚ) (st : OpenESState) (scores : List ℚ),
      scores.length ≠ st.popsize →
      OpenES.tellPy optStep st scores =
        (st, some "Inconsistent reward_table size reported.")) ∧
    (∀ (st : SimpleGAState) (scores : List ℚ),
      scores.length ≠ st.popsize →
      SimpleGA.tellPy st scores =
        (st, some "Inconsistent reward_table size reported.")) ∧
    (∀ (sq : ℚ → ℚ) (st : PEPGState) (scores : List ℚ),
      scores.length ≠ st.popsize →
      PEPG.tellPy sq st scores =
        (st, some "Inconsistent reward_table size reported.")) := by
  refine ⟨?_, ?_, ?_⟩
  · intro optStep st scores h
    unfold OpenES.tellPy OpenES.tell
    rw [if_pos h]
  · intro st scores h
    unfold SimpleGA.tellPy SimpleGA.tell
    rw [if_pos h]
  · intro sq st scores h
    unfold PEPG.tellPy PEPG.tell
    rw [if_pos h]

/-- Witness for claim C6: empty scores against popsize-2 states of each of
the three strategies. -/
theorem tell_wrong_length_all_or_nothing_witness :
    (([] : List ℚ).length ≠ sampleOpenES.popsize ∧
      OpenES.tellPy (SimpleSGD.compute_step (1/100)) sampleOpenES [] =
        (sampleOpenES, some "Inconsistent reward_table size reported.")) ∧
    (([] : List ℚ).length ≠ sampleGA.popsize ∧
      SimpleGA.tellPy sampleGA [] =
        (sampleGA, some "Inconsistent reward_table size reported.")) ∧
    (([] : List ℚ).length ≠ samplePEPG.popsize ∧
      PEPG.tellPy (fun q => q) samplePEPG [] =
        (samplePEPG, some "Inconsistent reward_table size reported.")) :=
  ⟨⟨by decide, tell_wrong_length_all_or_nothing.1
      (SimpleSGD.compute_step (1/100)) sampleOpenES [] (by decide)⟩,
   ⟨by decide, tell_wrong_length_all_or_nothing.2.1 sampleGA [] (by decide)⟩,
   ⟨by decide, tell_wrong_length_all_or_nothing.2.2 (fun q => q) samplePEPG []
      (by decide)⟩⟩

/-! ## Claim C3: the sigma floor

The decay in every strategy is one-sided — it fires only while sigma is
strictly above `sigma_limit` — so a single `tell` can land sigma one decay
factor below the limit, but never further: `sigma_limit * sigma_decay` is
an invariant lower bound. -/

/-- Fold a state-preserving property through `List.foldl`. -/
theorem foldl_preserves {α β : Type} (P : α → Prop) (f : α → β → α)
    (hstep : ∀ a b, P a → P (f a b)) :
    ∀ (l : List β) (a : α), P a → P (l.foldl f a) := by
  intro l
  induction l with
  | nil => intro a ha; exact ha
  | cons b rest ih => intro a ha; exact ih (f a b) (hstep a b ha)

/-- The sigma-floor invariant for OpenES, with the decay and limit constants
pinned. -/
def OpenESsigmaOK (d L : ℚ) (st : OpenESState) : Prop :=
  st.sigma_decay = d ∧ st.sigma_limit = L ∧ L * d ≤ st.sigma

theorem openES_tellCore_sigma (optStep : List ℚ → List ℚ) (st : OpenESState)
    (scores : List ℚ) :
    (OpenES.tellCore optStep st scores).sigma =
      (if st.sigma_limit < st.sigma then st.sigma * st.sigma_decay
       else st.sigma) := rfl

theorem openES_tellPy_preserves_sigmaOK (d L : ℚ) (hd : 0 < d)
    (st : OpenESState) (p : (List ℚ → List ℚ) × List ℚ)
    (h : OpenESsigmaOK d L st) :
    OpenESsigmaOK d L ((OpenES.tellPy p.1 st p.2).1) := by
  obtain ⟨h1, h2, h3⟩ := h
  unfold OpenES.tellPy OpenES.tell
  by_cases hlen : p.2.length ≠ st.popsize
  · rw [if_pos hlen]; exact ⟨h1, h2, h3⟩
  · rw [if_neg hlen]
    refine ⟨h1, h2, ?_⟩
    show L * d ≤ (OpenES.tellCore p.1 st p.2).sigma
    rw [openES_tellCore_sigma]
    subst h1; subst h2
    split
    · next hlt => exact mul_le_mul_of_nonneg_right hlt.le hd.le
    · next _ => exact h3

/-- The sigma-floor invariant for SimpleGA. -/
def GAsigmaOK (d L : ℚ) (st : SimpleGAState) : Prop :=
  st.sigma_decay = d ∧ st.sigma_limit = L ∧ L * d ≤ st.sigma

theorem simpleGA_tellCore_sigma (st : SimpleGAState) (scores : List ℚ) :
    (SimpleGA.tellCore st scores).sigma =
      (if st.sigma_limit < st.sigma then st.sigma * st.sigma_decay
       else st.sigma) := rfl

theorem simpleGA_tellPy_preserves_sigmaOK (d L : ℚ) (hd : 0 < d)
    (st : SimpleGAState) (scores : List ℚ) (h : GAsigmaOK d L st) :
    GAsigmaOK d L ((SimpleGA.tellPy st scores).1) := by
  obtain ⟨h1, h2, h3⟩ := h
  unfold SimpleGA.tellPy SimpleGA.tell
  by_cases hlen : scores.length ≠ st.popsize
  · rw [if_pos hlen]; exact ⟨h1, h2, h3⟩
  · rw [if_neg hlen]
    refine ⟨h1, h2, ?_⟩
    show L * d ≤ (SimpleGA.tellCore st scores).sigma
    rw [simpleGA_tellCore_sigma]
    subst h1; subst h2
    split
    · next hlt => exact mul_le_mul_of_nonneg_right hlt.le hd.le
    · next _ => exact h3

/-- The per-dimension sigma-floor invariant for PEPG under `sigma_alpha = 0`
(the adaptive-sigma block is skipped); `sigma_init` must also respect the
bound because the first `tell` resets sigma to `ones * sigma_init`. -/
def PEPGsigmaOK (d L s0 : ℚ) (st : PEPGState) : Prop :=
  st.sigma_alpha = 0 ∧ st.sigma_decay = d ∧ st.sigma_limit = L ∧
  st.sigma_init = s0 ∧ L * d ≤ s0 ∧ ∀ s ∈ st.sigma, L * d ≤ s

theorem pepg_tellCore_sigma_alpha_zero (sq : ℚ → ℚ) (st : PEPGState)
    (scores : List ℚ) (hα : st.sigma_alpha = 0) :
    (PEPG.tellCore sq st scores).sigma =
      (let base := if st.first_interation then
          List.replicate st.num_params st.sigma_init
        else st.sigma
       if st.sigma_decay < 1 then
         base.map (fun s => if st.sigma_limit < s then s * st.sigma_decay else s)
       else base) := by
  unfold PEPG.tellCore
  rw [hα]
  simp only [lt_irrefl, if_false, ite_false]

theorem pepg_tellPy_preserves_sigmaOK (sq : ℚ → ℚ) (d L s0 : ℚ) (hd : 0 < d)
    (st : PEPGState) (scores : List ℚ) (h : PEPGsigmaOK d L s0 st) :
    PEPGsigmaOK d L s0 ((PEPG.tellPy sq st scores).1) := by
  obtain ⟨hα, h1, h2, h4, h5, h6⟩ := h
  unfold PEPG.tellPy PEPG.tell
  by_cases hlen : scores.length ≠ st.popsize
  · rw [if_pos hlen]; exact ⟨hα, h1, h2, h4, h5, h6⟩
  · rw [if_neg hlen]
    refine ⟨hα, h1, h2, h4, h5, ?_⟩
    intro s hs
    have hs2 : s ∈ (PEPG.tellCore sq st scores).sigma := hs
    rw [pepg_tellCore_sigma_alpha_zero sq st scores hα] at hs2
    have hbase : ∀ x, x ∈ (if st.first_interation then
        List.replicate st.num_params st.sigma_init else st.sigma) → L * d ≤ x := by
      intro x hx
      by_cases hfi : st.first_interation = true
      · rw [if_pos hfi] at hx
        rw [List.eq_of_mem_replicate hx, h4]
        exact h5
      · rw [if_neg hfi] at hx
        exact h6 x hx
    by_cases hdec : st.sigma_decay < 1
    · rw [if_pos hdec] at hs2
      obtain ⟨x, hx, rfl⟩ := List.mem_map.mp hs2
      by_cases hlt : st.sigma_limit < x
      · rw [if_pos hlt, h1]
        have hLx : L ≤ x := (h2 ▸ hlt).le
        exact mul_le_mul_of_nonneg_right hLx hd.le
      · rw [if_neg hlt]
        exact hbase x hx
    · rw [if_neg hdec] at hs2
      exact hbase s hs2

theorem openES_runTells_sigma (d L : ℚ) (hd : 0 < d) (st : OpenESState)
    (ins : List ((List ℚ → List ℚ) × List ℚ)) (h : OpenESsigmaOK d L st) :
    OpenESsigmaOK d L (OpenES.runTells ins st) :=
  foldl_preserves (OpenESsigmaOK d L) _
    (fun a b ha => openES_tellPy_preserves_sigmaOK d L hd a b ha) ins st h

theorem simpleGA_runTells_sigma (d L : ℚ) (hd : 0 < d) (st : SimpleGAState)
    (ins : List (List ℚ)) (h : GAsigmaOK d L st) :
    GAsigmaOK d L (SimpleGA.runTells ins st) :=
  foldl_preserves (GAsigmaOK d L) _
    (fun a b ha => simpleGA_tellPy_preserves_sigmaOK d L hd a b ha) ins st h

theorem pepg_runTells_sigma (sq : ℚ → ℚ) (d L s0 : ℚ) (hd : 0 < d)
    (st : PEPGState) (ins : List (List ℚ)) (h : PEPGsigmaOK d L s0 st) :
    PEPGsigmaOK d L s0 (PEPG.runTells sq ins st) :=
  foldl_preserves (PEPGsigmaOK d L s0) _
    (fun a b ha => pepg_tellPy_preserves_sigmaOK sq d L s0 hd a b ha) ins st h

/-- Claim C3 (amended): for OpenES and SimpleGA — and for every dimension
of PEPG's sigma vector when `sigma_alpha = 0` (for PEPG also assuming
`sigma_init ≥ sigma_limit`, since the first `tell` resets sigma to
`ones * sigma_init`) — starting from `sigma ≥ sigma_limit` with
`0 < sigma_decay ≤ 1` and `sigma_limit ≥ 0`, after any number of `tell()`
calls sigma never lies strictly below `sigma_limit * sigma_decay`.  (The
bound `sigma_limit` itself, claimed by the spec, fails: the one-sided decay
can land exactly one factor below the limit — see the counterexample.) -/
theorem sigma_never_below_decayed_limit :
    (∀ (st : OpenESState) (ins : List ((List ℚ → List ℚ) × List ℚ)),
      0 < st.sigma_decay → st.sigma_decay ≤ 1 → 0 ≤ st.sigma_limit →
      st.sigma_limit ≤ st.sigma →
      st.sigma_limit * st.sigma_decay ≤ (OpenES.runTells ins st).sigma) ∧
    (∀ (st : SimpleGAState) (ins : List (List ℚ)),
      0 < st.sigma_decay → st.sigma_decay ≤ 1 → 0 ≤ st.sigma_limit →
      st.sigma_limit ≤ st.sigma →
      st.sigma_limit * st.sigma_decay ≤ (SimpleGA.runTells ins st).sigma) ∧
    (∀ (sq : ℚ → ℚ) (st : PEPGState) (ins : List (List ℚ)),
      st.sigma_alpha = 0 → 0 < st.sigma_decay → st.sigma_decay ≤ 1 →
      0 ≤ st.sigma_limit → st.sigma_limit ≤ st.sigma_init →
      (∀ s ∈ st.sigma, st.sigma_limit ≤ s) →
      ∀ s ∈ (PEPG.runTells sq ins st).sigma,
        st.sigma_limit * st.sigma_decay ≤ s) := by
  refine ⟨?_, ?_, ?_⟩
  · intro st ins hd hd1 hL hs
    have hstart : st.sigma_limit * st.sigma_decay ≤ st.sigma :=
      le_trans (mul_le_of_le_one_right hL hd1) hs
    exact (openES_runTells_sigma st.sigma_decay st.sigma_limit hd st ins
      ⟨rfl, rfl, hstart⟩).2.2
  · intro st ins hd hd1 hL hs
    have hstart : st.sigma_limit * st.sigma_decay ≤ st.sigma :=
      le_trans (mul_le_of_le_one_right hL hd1) hs
    exact (simpleGA_runTells_sigma st.sigma_decay st.sigma_limit hd st ins
      ⟨rfl, rfl, hstart⟩).2.2
  · intro sq st ins hα hd hd1 hL hsi hss
    have hstart0 : st.sigma_limit * st.sigma_decay ≤ st.sigma_init :=
      le_trans (mul_le_of_le_one_right hL hd1) hsi
    have hstart : ∀ s ∈ st.sigma, st.sigma_limit * st.sigma_decay ≤ s :=
      fun s hs => le_trans (mul_le_of_le_one_right hL hd1) (hss s hs)
    exact (pepg_runTells_sigma sq st.sigma_decay st.sigma_limit st.sigma_init
      hd st ins ⟨hα, rfl, rfl, rfl, hstart0, hstart⟩).2.2.2.2.2

/-- Claim C3 counterexample: from `sampleOpenES` (`sigma = 0.015` at least
`sigma_limit = 0.01`, `sigma_decay = 0.5`) one successful `tell` leaves
`sigma = 0.0075`, strictly below `sigma_limit` — refuting "sigma never lies
strictly below sigma_limit". -/
theorem openes_sigma_below_limit_after_one_tell :
    sampleOpenES.sigma_limit ≤ sampleOpenES.sigma ∧
    (OpenES.tell (SimpleSGD.compute_step (1/100)) sampleOpenES
        [1, 0]).toOption.map OpenESState.sigma = some (3/400) ∧
    (3/400 : ℚ) < sampleOpenES.sigma_limit := by
  with_unfolding_all decide

/-- Witness for claim C3 at the three sample states with a single `tell`. -/
theorem sigma_never_below_decayed_limit_witness :
    ((0 : ℚ) < sampleOpenES.sigma_decay ∧ sampleOpenES.sigma_decay ≤ 1 ∧
     (0 : ℚ) ≤ sampleOpenES.sigma_limit ∧
     sampleOpenES.sigma_limit ≤ sampleOpenES.sigma ∧
     sampleOpenES.sigma_limit * sampleOpenES.sigma_decay ≤
       (OpenES.runTells [(SimpleSGD.compute_step (1/100), [1, 0])]
         sampleOpenES).sigma) ∧
    ((0 : ℚ) < sampleGA.sigma_decay ∧ sampleGA.sigma_decay ≤ 1 ∧
     (0 : ℚ) ≤ sampleGA.sigma_limit ∧ sampleGA.sigma_limit ≤ sampleGA.sigma ∧
     sampleGA.sigma_limit * sampleGA.sigma_decay ≤
       (SimpleGA.runTells [[1, 0]] sampleGA).sigma) ∧
    (samplePEPG.sigma_alpha = 0 ∧ (0 : ℚ) < samplePEPG.sigma_decay ∧
     samplePEPG.sigma_decay ≤ 1 ∧ (0 : ℚ) ≤ samplePEPG.sigma_limit ∧
     samplePEPG.sigma_limit ≤ samplePEPG.sigma_init ∧
     (∀ s ∈ samplePEPG.sigma, samplePEPG.sigma_limit ≤ s) ∧
     ∀ s ∈ (PEPG.runTells (fun q => q) [[1, 0]] samplePEPG).sigma,
       samplePEPG.sigma_limit * samplePEPG.sigma_decay ≤ s) :=
  ⟨⟨by with_unfolding_all decide, by with_unfolding_all decide,
    by with_unfolding_all decide, by with_unfolding_all decide,
    sigma_never_below_decayed_limit.1 sampleOpenES
      [(SimpleSGD.compute_step (1/100), [1, 0])]
      (by with_unfolding_all decide) (by with_unfolding_all decide)
      (by with_unfolding_all decide) (by with_unfolding_all decide)⟩,
   ⟨by with_unfolding_all decide, by with_unfolding_all decide,
    by with_unfolding_all decide, by with_unfolding_all decide,
    sigma_never_below_decayed_limit.2.1 sampleGA [[1, 0]]
      (by with_unfolding_all decide) (by with_unfolding_all decide)
      (by with_unfolding_all decide) (by with_unfolding_all decide)⟩,
   ⟨by with_unfolding_all decide, by with_unfolding_all decide,
    by with_unfolding_all decide, by with_unfolding_all decide,
    by with_unfolding_all decide, by with_unfolding_all decide,
    sigma_never_below_decayed_limit.2.2 (fun q => q) samplePEPG [[1, 0]]
      (by with_unfolding_all decide) (by with_unfolding_all decide)
      (by with_unfolding_all decide) (by with_unfolding_all decide)
      (by with_unfolding_all decide) (by with_unfolding_all decide)⟩⟩

/-! ## Claim C1: structure of the PEPG population without average baseline -/

theorem vadd_vzero (x : List ℚ) (n : ℕ) (h : x.length = n) :
    vadd x (vzero n) = x := by
  subst h
  induction x with
  | nil => rfl
  | cons a xs ih =>
    show (a + 0) :: vadd xs (vzero xs.length) = a :: xs
    rw [add_zero, ih]

theorem vsub_vadd_cancel (x y : List ℚ) (h : x.length = y.length) :
    vsub (vadd x y) x = y := by
  induction x generalizing y with
  | nil => cases y with
    | nil => rfl
    | cons b ys => simp at h
  | cons a xs ih =>
    cases y with
    | nil => simp at h
    | cons b ys =>
      show (a + b - a) :: vsub (vadd xs ys) xs = b :: ys
      rw [add_sub_cancel_left, ih ys (by simpa using h)]

theorem vneg_vneg (x : List ℚ) : vneg (vneg x) = x := by
  induction x with
  | nil => rfl
  | cons a xs ih =>
    show -(-a) :: vneg (vneg xs) = a :: xs
    rw [neg_neg, ih]

theorem vmul_length (x y : List ℚ) : (vmul x y).length = min x.length y.length :=
  List.length_zipWith _ x y

theorem getD_mem_of_lt {α : Type} (l : List α) (i : ℕ) (d : α)
    (h : i < l.length) : l.getD i d ∈ l := by
  induction l generalizing i with
  | nil => simp at h
  | cons a xs ih =>
    cases i with
    | zero => simp [List.getD]
    | succ k =>
      simp only [List.getD_cons_succ]
      exact List.mem_cons_of_mem a (ih k (by simpa using h))

theorem getD_append_of_lt {α : Type} (l1 l2 : List α) (i : ℕ) (d : α)
    (h : i < l1.length) : (l1 ++ l2).getD i d = l1.getD i d := by
  induction l1 generalizing i with
  | nil => simp at h
  | cons a xs ih =>
    cases i with
    | zero => rfl
    | succ k =>
      simp only [List.cons_append, List.getD_cons_succ]
      exact ih k (by simpa using h)

theorem getD_append_length_add {α : Type} (l1 l2 : List α) (i : ℕ) (d : α) :
    (l1 ++ l2).getD (l1.length + i) d = l2.getD i d := by
  induction l1 with
  | nil => simp
  | cons a xs ih =>
    have hidx : (a :: xs).length + i = (xs.length + i) + 1 := by
      rw [List.length_cons]; omega
    rw [hidx, List.cons_append, List.getD_cons_succ, ih]

theorem getD_default_irrel {α : Type} (l : List α) (i : ℕ) (d d0 : α)
    (h : i < l.length) : l.getD i d = l.getD i d0 := by
  induction l generalizing i with
  | nil => simp at h
  | cons a xs ih =>
    cases i with
    | zero => rfl
    | succ k =>
      simp only [List.getD_cons_succ]
      exact ih k (by simpa using h)

/-- Claim C1 (amended): for a PEPG state in the `average_baseline = False`
mode (odd popsize, `batch_size = (popsize-1)/2`, i.e. `popsize =
2*batch_size + 1`), `ask()` returns a population whose first element is the
unperturbed mean, followed by the antithetic perturbation pairs (member
`1+i` and member `1+batch_size+i` carry opposite perturbations), and the
total population size is `popsize` — not `popsize + 1` as the spec claims
(see the counterexample). -/
theorem pepg_ask_no_baseline_structure (st : PEPGState) (randn : List (List ℚ))
    (hb : st.average_baseline = false)
    (hp : st.popsize = 2 * st.batch_size + 1)
    (hr : randn.length = st.batch_size)
    (hrows : ∀ row ∈ randn, row.length = st.num_params)
    (hmu : st.mu.length = st.num_params)
    (hsig : st.sigma.length = st.num_params) :
    ((PEPG.ask randn st).2).length = st.popsize ∧
    ((PEPG.ask randn st).2).getD 0 [] = st.mu ∧
    ∀ i < st.batch_size,
      vsub (((PEPG.ask randn st).2).getD (1 + i) []) st.mu =
        vneg (vsub (((PEPG.ask randn st).2).getD (1 + st.batch_size + i) [])
          st.mu) := by
  have hsol : (PEPG.ask randn st).2 =
      (vzero st.num_params ::
        (randn.map (fun row => vmul row st.sigma) ++
         (randn.map (fun row => vmul row st.sigma)).map vneg)).map
        (fun e => vadd st.mu e) := by
    unfold PEPG.ask
    rw [hb]
    rfl
  set eps := randn.map (fun row => vmul row st.sigma) with heps
  have heplen : eps.length = st.batch_size := by
    rw [heps, List.length_map, hr]
  have hepsrow : ∀ i, i < st.batch_size →
      (eps.getD i (vzero st.num_params)).length = st.num_params := by
    intro i hi
    have hilt : i < randn.length := by rw [hr]; exact hi
    have hmap : eps.getD i (vzero st.num_params) =
        vmul (randn.getD i []) st.sigma := by
      rw [heps]
      exact getD_map_of_lt _ randn i hilt (vzero st.num_params) []
    rw [hmap, vmul_length,
      hrows (randn.getD i []) (getD_mem_of_lt randn i [] hilt), hsig,
      Nat.min_self]
  refine ⟨?_, ?_, ?_⟩
  · rw [hsol]
    simp only [List.length_map, List.length_cons, List.length_append, heplen]
    omega
  · rw [hsol]
    show vadd st.mu (vzero st.num_params) = st.mu
    exact vadd_vzero st.mu st.num_params hmu
  · intro i hi
    have hi2 : i < eps.length := by rw [heplen]; exact hi
    have hi3 : i < (eps ++ eps.map vneg).length := by
      simp only [List.length_append, List.length_map]
      omega
    have hi4 : st.batch_size + i < (eps ++ eps.map vneg).length := by
      simp only [List.length_append, List.length_map, heplen]
      omega
    have hfull1 : (eps ++ eps.map vneg).getD i (vzero st.num_params) =
        eps.getD i (vzero st.num_params) :=
      getD_append_of_lt eps (eps.map vneg) i _ hi2
    have hfull2 : (eps ++ eps.map vneg).getD (st.batch_size + i)
        (vzero st.num_params) = vneg (eps.getD i (vzero st.num_params)) := by
      have h1 : (eps ++ eps.map vneg).getD (eps.length + i) (vzero st.num_params) =
          (eps.map vneg).getD i (vzero st.num_params) :=
        getD_append_length_add eps (eps.map vneg) i _
      rw [heplen] at h1
      rw [h1]
      exact getD_map_of_lt vneg eps i hi2 (vzero st.num_params) (vzero st.num_params)
    have hw : (eps.getD i (vzero st.num_params)).length = st.num_params :=
      hepsrow i hi
    have hidx1 : 1 + i = i + 1 := Nat.add_comm 1 i
    have hidx2 : 1 + st.batch_size + i = (st.batch_size + i) + 1 := by omega
    have hget1 : ((PEPG.ask randn st).2).getD (1 + i) [] =
        vadd st.mu ((eps ++ eps.map vneg).getD i (vzero st.num_params)) := by
      rw [hsol, hidx1, List.map_cons, List.getD_cons_succ]
      exact getD_map_of_lt _ _ i hi3 [] (vzero st.num_params)
    have hget2 : ((PEPG.ask randn st).2).getD (1 + st.batch_size + i) [] =
        vadd st.mu ((eps ++ eps.map vneg).getD (st.batch_size + i)
          (vzero st.num_params)) := by
      rw [hsol, hidx2, List.map_cons, List.getD_cons_succ]
      exact getD_map_of_lt _ _ _ hi4 [] (vzero st.num_params)
    have hwneg : (vneg (eps.getD i (vzero st.num_params))).length = st.num_params := by
      rw [vneg, List.length_map, hw]
    rw [hget1, hget2, hfull1, hfull2]
    rw [vsub_vadd_cancel st.mu _ (by rw [hmu, hw]),
      vsub_vadd_cancel st.mu _ (by rw [hmu, hwneg]),
      vneg_vneg]

/-- Claim C1 counterexample: a `PEPG` constructed with `average_baseline =
False` must have an odd popsize (here 3), and `ask()` then returns
`popsize` = 3 solutions — not `popsize + 1` = 4 as the claim states. -/
theorem pepg_ask_size_is_popsize_not_plus_one :
    (PEPG.init 1 (1/10) (1/5) (999/1000) (1/100) (1/5) (1/100) (9999/10000)
        (1/100) 0 3 false (1/100) true true).toOption.map
      (fun st => (((PEPG.ask [[1]] st).2).length, st.popsize)) =
      some (3, 3) ∧ (3 : ℕ) ≠ 3 + 1 := by
  with_unfolding_all decide

/-- Witness for claim C1 at `samplePEPGOdd` (popsize 3, batch 1) with one
raw noise row `[1]`. -/
theorem pepg_ask_no_baseline_structure_witness :
    (samplePEPGOdd.average_baseline = false ∧
     samplePEPGOdd.popsize = 2 * samplePEPGOdd.batch_size + 1 ∧
     ([[1]] : List (List ℚ)).length = samplePEPGOdd.batch_size ∧
     (∀ row ∈ ([[1]] : List (List ℚ)), row.length = samplePEPGOdd.num_params) ∧
     samplePEPGOdd.mu.length = samplePEPGOdd.num_params ∧
     samplePEPGOdd.sigma.length = samplePEPGOdd.num_params) ∧
    (((PEPG.ask [[1]] samplePEPGOdd).2).length = samplePEPGOdd.popsize ∧
     ((PEPG.ask [[1]] samplePEPGOdd).2).getD 0 [] = samplePEPGOdd.mu ∧
     ∀ i < samplePEPGOdd.batch_size,
       vsub (((PEPG.ask [[1]] samplePEPGOdd).2).getD (1 + i) [])
           samplePEPGOdd.mu =
         vneg (vsub (((PEPG.ask [[1]] samplePEPGOdd).2).getD
           (1 + samplePEPGOdd.batch_size + i) []) samplePEPGOdd.mu)) :=
  ⟨⟨by with_unfolding_all decide, by with_unfolding_all decide,
    by with_unfolding_all decide, by with_unfolding_all decide,
    by with_unfolding_all decide, by with_unfolding_all decide⟩,
   pepg_ask_no_baseline_structure samplePEPGOdd [[1]]
     (by with_unfolding_all decide) (by with_unfolding_all decide)
     (by with_unfolding_all decide) (by with_unfolding_all decide)
     (by with_unfolding_all decide) (by with_unfolding_all decide)⟩

/-- Claim C5 (code bug evidence): `SimpleGA.__init__` assigns the ndarray
`self.best_param = np.zeros(num_params)`, which shadows the class method
`best_param` under CPython attribute lookup, so `ga.best_param()` raises
`TypeError` (the ndarray is not callable) for every `SimpleGA` state; in
particular after one completed ask/tell iteration of a concrete instance
(the chain evaluates to `some (some none)`: `ask` succeeded, `tell`
succeeded, and the call produced no value). -/
theorem simplega_best_param_call_fails :
    (∀ st : SimpleGAState,
      GAAttr.callNoArgs st (SimpleGA.lookup_best_param st) = none) ∧
    (SimpleGA.ask (fun _ _ => 1) (fun _ => 0) (fun _ _ => false)
        (SimpleGA.init 1 (1/10) (999/1000) (1/100) 2 (1/2) false
          (1/100))).toOption.map
      (fun p => (SimpleGA.tell p.1 [1, 0]).toOption.map
        (fun st2 => GAAttr.callNoArgs st2 (SimpleGA.lookup_best_param st2))) =
      some (some none) := by
  refine ⟨fun _ => rfl, ?_⟩
  with_unfolding_all decide

/-- With an empty elite pool the first loop iteration of `SimpleGA.ask`
raises from `np.random.choice` on an empty range. -/
theorem SimpleGA.children_elite_zero (pick : ℕ → ℕ) (coin : ℕ → ℕ → Bool)
    (st : SimpleGAState) (epsilon : List (List ℚ)) (i : ℕ) (rest : List ℕ)
    (h : st.elite_popsize = 0) :
    SimpleGA.children pick coin st epsilon (i :: rest) =
      Except.error "a must be non-empty" := by
  unfold SimpleGA.children npChoiceRange
  rw [h]
  rfl

/-- Claim C10 (amended): for any SimpleGA constructed with `popsize ≥ 1`,
`elite_ratio ≥ 0` and `popsize * elite_ratio < 1` (so `elite_popsize =
int(popsize * elite_ratio) = 0`), every call to `ask()` fails with the
empty-choice `ValueError` instead of returning a population.  (The spec
never states this constraint on `elite_ratio`; the degenerate `popsize = 0`
construction also satisfies `popsize * elite_ratio < 1` but returns an
empty population successfully — see the counterexample — hence the
`popsize ≥ 1` hypothesis.) -/
theorem simplega_ask_fails_with_empty_elite (num_params : ℕ)
    (sigma_init sigma_decay sigma_limit : ℚ) (popsize : ℕ) (elite_ratio : ℚ)
    (forget_best : Bool) (weight_decay : ℚ)
    (hpop : 1 ≤ popsize) (hr0 : 0 ≤ elite_ratio)
    (hr1 : (popsize : ℚ) * elite_ratio < 1)
    (randn : ℕ → ℕ → ℚ) (pick : ℕ → ℕ) (coin : ℕ → ℕ → Bool) :
    SimpleGA.ask randn pick coin
      (SimpleGA.init num_params sigma_init sigma_decay sigma_limit popsize
        elite_ratio forget_best weight_decay) =
      Except.error "a must be non-empty" := by
  set st := SimpleGA.init num_params sigma_init sigma_decay sigma_limit popsize
    elite_ratio forget_best weight_decay with hst
  have helite : st.elite_popsize = 0 := by
    show (pyInt ((popsize : ℚ) * elite_ratio)).toNat = 0
    have h0 : 0 ≤ (popsize : ℚ) * elite_ratio :=
      mul_nonneg (Nat.cast_nonneg popsize) hr0
    unfold pyInt
    rw [if_pos h0, Int.floor_eq_zero_iff.mpr (Set.mem_Ico.mpr ⟨h0, hr1⟩)]
    rfl
  have hps : st.popsize = (popsize - 1) + 1 := by
    show popsize = (popsize - 1) + 1
    omega
  unfold SimpleGA.ask
  rw [hps, List.range_succ_eq_map]
  simp only [SimpleGA.children_elite_zero pick coin st _ _ _ helite]

/-- Claim C10 counterexample: `popsize = 0` with `elite_ratio = 1/2`
satisfies the claim's premise `popsize * elite_ratio < 1` (and indeed
`elite_popsize = 0`), yet `ask()` succeeds and returns the empty population
instead of failing. -/
theorem simplega_ask_popsize_zero_succeeds :
    ((0 : ℚ) * (1/2) < 1) ∧
    (SimpleGA.init 1 (1/10) (999/1000) (1/100) 0 (1/2) false
      (1/100)).elite_popsize = 0 ∧
    (SimpleGA.ask (fun _ _ => 0) (fun _ => 0) (fun _ _ => false)
      (SimpleGA.init 1 (1/10) (999/1000) (1/100) 0 (1/2) false
        (1/100))).toOption.map (fun p => p.2) = some [] := by
  with_unfolding_all decide

/-- Witness for claim C10: `popsize = 2`, `elite_ratio = 1/4`. -/
theorem simplega_ask_fails_with_empty_elite_witness :
    (1 : ℕ) ≤ 2 ∧ (0 : ℚ) ≤ 1/4 ∧ ((2 : ℕ) : ℚ) * (1/4) < 1 ∧
    SimpleGA.ask (fun _ _ => 0) (fun _ => 0) (fun _ _ => false)
      (SimpleGA.init 1 (1/10) (999/1000) (1/100) 2 (1/4) false (1/100)) =
      Except.error "a must be non-empty" :=
  ⟨by decide, by with_unfolding_all decide, by with_unfolding_all decide,
   simplega_ask_fails_with_empty_elite 1 (1/10) (999/1000) (1/100) 2 (1/4)
     false (1/100) (by decide) (by with_unfolding_all decide)
     (by with_unfolding_all decide) (fun _ _ => 0) (fun _ => 0)
     (fun _ _ => false)⟩
